import Mathlib

/-!
Shallow embedding of the Video-Simulation-System core (video.h / video.cpp,
user.h / user.cpp, and the search branch of main.cpp).

Mutable C++ objects become immutable Lean structures; each mutating member
function becomes a function returning the updated structure together with its
`OpResult`.  The process-wide `IdGen` atomic counter becomes an explicitly
threaded `Int` state.  `std::cout` rendering (`Playlist::show`) becomes a
function producing the list of printed lines.  Wall-clock timestamps are
threaded as an explicit argument (`ts`), since the clock is external input.
-/

/-- Embeds `enum class OpStatus` from video.h. -/
inductive OpStatus where
  | SUCCESS
  | NOT_FOUND
  | ALREADY_EXISTS
  | PERMISSION_DENIED
  | INVALID_INPUT
  | NOT_LOGGED_IN
deriving DecidableEq, Repr

/-- Embeds `struct OpResult` from video.h: status, message, optional id (default -1). -/
structure OpResult where
  status : OpStatus
  message : String
  id : Int
deriving DecidableEq, Repr

/-- Embeds `OpResult::isSuccess` from video.cpp. -/
def OpResult.isSuccess (r : OpResult) : Bool :=
  r.status = OpStatus.SUCCESS

/-- Embeds `IdGen::next` from video.cpp: `return ++counter;`.  The atomic
process-wide counter is threaded explicitly: given the current counter the
call returns the issued id and the new counter. -/
def IdGen.next (c : Int) : Int × Int :=
  (c + 1, c + 1)

/-- Embeds `class Comment` from video.h. -/
structure Comment where
  id : Int
  author : String
  text : String
  likes : Int
  ts : Int
deriving DecidableEq, Repr

/-- Embeds `Comment::Comment(a, t)` from video.cpp: mints a fresh id via
`IdGen::next`, zero likes; the wall-clock timestamp is an explicit input. -/
def Comment.create (a t : String) (ts c : Int) : Comment × Int :=
  let p := IdGen.next c
  ({ id := p.1, author := a, text := t, likes := 0, ts := ts }, p.2)

/-- Embeds `Comment::like` from video.cpp: `likes++`. -/
def Comment.like (cm : Comment) : Comment :=
  { cm with likes := cm.likes + 1 }

/-- Embeds `class Video` from video.h. -/
structure Video where
  id : Int
  title : String
  uploader : String
  durationSec : Int
  views : Int
  playing : Bool
  comments : List Comment
deriving DecidableEq, Repr

/-- Embeds `Video::Video(t, u, d)` from video.cpp: fresh id, zero views, not
playing, no comments. -/
def Video.create (t u : String) (d : Int) (c : Int) : Video × Int :=
  let p := IdGen.next c
  ({ id := p.1, title := t, uploader := u, durationSec := d, views := 0,
     playing := false, comments := [] }, p.2)

/-- Embeds `Video::play` from video.cpp. -/
def Video.play (v : Video) : Video × OpResult :=
  if !v.playing then
    ({ v with playing := true, views := v.views + 1 },
     { status := OpStatus.SUCCESS,
       message := "Playing \"" ++ v.title ++ "\" (views: " ++ toString (v.views + 1) ++ ")",
       id := -1 })
  else
    (v, { status := OpStatus.ALREADY_EXISTS,
          message := "Already playing \"" ++ v.title ++ "\"", id := -1 })

/-- Embeds `Video::pause` from video.cpp. -/
def Video.pause (v : Video) : Video × OpResult :=
  if v.playing then
    ({ v with playing := false },
     { status := OpStatus.SUCCESS, message := "Paused \"" ++ v.title ++ "\"", id := -1 })
  else
    (v, { status := OpStatus.INVALID_INPUT,
          message := "Not playing \"" ++ v.title ++ "\"", id := -1 })

/-- Embeds `Video::addComment` from video.cpp: `emplace_back` a new comment and
return Success carrying its id; the threaded id counter comes back third. -/
def Video.addComment (v : Video) (user text : String) (ts c : Int) :
    Video × OpResult × Int :=
  let p := Comment.create user text ts c
  ({ v with comments := v.comments ++ [p.1] },
   { status := OpStatus.SUCCESS, message := "Comment added by " ++ user, id := p.1.id },
   p.2)

/-- The linear-search loop of `Video::likeComment` over the comment vector. -/
def likeLoop (cid : Int) : List Comment → List Comment × OpResult
  | [] => ([], { status := OpStatus.NOT_FOUND, message := "Comment not found", id := -1 })
  | cm :: rest =>
    if cm.id = cid then
      (cm.like :: rest,
       { status := OpStatus.SUCCESS,
         message := "Liked comment " ++ toString cid ++ " (likes=" ++ toString (cm.like.likes) ++ ")",
         id := -1 })
    else
      let p := likeLoop cid rest
      (cm :: p.1, p.2)

/-- Embeds `Video::likeComment` from video.cpp. -/
def Video.likeComment (v : Video) (cid : Int) : Video × OpResult :=
  let p := likeLoop cid v.comments
  ({ v with comments := p.1 }, p.2)

/-- The linear-search loop of `Video::removeComment` over the comment vector:
at the first comment whose id matches, erase it when the requester is the
author or the channel owner, else PermissionDenied; NotFound past the end. -/
def removeLoop (cid : Int) (requester channelOwner : String) :
    List Comment → List Comment × OpResult
  | [] => ([], { status := OpStatus.NOT_FOUND, message := "Comment not found", id := -1 })
  | cm :: rest =>
    if cm.id = cid then
      if requester = cm.author ∨ requester = channelOwner then
        (rest, { status := OpStatus.SUCCESS, message := "Comment removed", id := -1 })
      else
        (cm :: rest,
         { status := OpStatus.PERMISSION_DENIED, message := "Permission denied", id := -1 })
    else
      let p := removeLoop cid requester channelOwner rest
      (cm :: p.1, p.2)

/-- Embeds `Video::removeComment` from video.cpp. -/
def Video.removeComment (v : Video) (cid : Int) (requester channelOwner : String) :
    Video × OpResult :=
  let p := removeLoop cid requester channelOwner v.comments
  ({ v with comments := p.1 }, p.2)

/-- Embeds `class Channel` from video.h: the `unordered_set<string>` of subscribers
is modelled as the list of its elements (insertion keeps it duplicate-free). -/
structure Channel where
  name : String
  owner : String
  description : String
  uploads : List Video
  subscribers : List String
deriving DecidableEq, Repr

/-- Embeds `Channel::subscribe` from video.cpp: `insert(user).second` decides
between Success (newly inserted) and AlreadyExists. -/
def Channel.subscribe (ch : Channel) (user : String) : Channel × OpResult :=
  if user ∈ ch.subscribers then
    (ch, { status := OpStatus.ALREADY_EXISTS, message := user ++ " already subscribed", id := -1 })
  else
    ({ ch with subscribers := user :: ch.subscribers },
     { status := OpStatus.SUCCESS, message := user ++ " subscribed to " ++ ch.name, id := -1 })

/-- Embeds `Channel::unsubscribe` from video.cpp: `erase(user)` decides between
Success (removed) and NotFound. -/
def Channel.unsubscribe (ch : Channel) (user : String) : Channel × OpResult :=
  if user ∈ ch.subscribers then
    ({ ch with subscribers := ch.subscribers.erase user },
     { status := OpStatus.SUCCESS, message := user ++ " unsubscribed from " ++ ch.name, id := -1 })
  else
    (ch, { status := OpStatus.NOT_FOUND, message := user ++ " was not subscribed", id := -1 })

/-- Embeds `class Playlist` from video.h: a name and an ordered list of video ids. -/
structure Playlist where
  name : String
  videoIds : List Int
deriving DecidableEq, Repr

/-- Embeds `Playlist::add` from video.cpp: unconditionally appends the id. -/
def Playlist.add (p : Playlist) (videoId : Int) : Playlist :=
  { p with videoIds := p.videoIds ++ [videoId] }

/-- One printed line of `Playlist::show` for the entry at 0-based position
`i` that resolved to video `v`: `"  [i+1] title (id=...)"`. -/
def showLine (i : Nat) (v : Video) : String :=
  "  [" ++ toString (i + 1) ++ "] " ++ v.title ++ " (id=" ++ toString v.id ++ ")"

/-- Embeds `Playlist::show` from video.cpp, as the list of lines it prints: the
header, then `"  (empty)"` if the id list is empty, else one line per id
that the supplied id-to-Video mapping resolves (unresolved ids are skipped,
the printed index being the 1-based position in the id list). -/
def Playlist.show (p : Playlist) (videoMap : Int → Option Video) : List String :=
  ("Playlist: " ++ p.name) ::
    (if p.videoIds.isEmpty then ["  (empty)"]
     else p.videoIds.enum.filterMap fun iv => (videoMap iv.2).map (showLine iv.1))

/-- Embeds `class User` from user.h: the `unordered_set`/`unordered_map` members
are modelled as lists (of elements, resp. of key-value pairs). -/
structure User where
  username : String
  subscriptions : List String
  historyIds : List Int
  playlists : List (String × Playlist)
deriving DecidableEq, Repr

/-- Embeds `User::watch` from user.cpp: NotFound on a null video; otherwise append
the video's id to the history and delegate to `Video::play`, whose updated
video and result are passed back. -/
def User.watch (u : User) (vo : Option Video) : User × Option Video × OpResult :=
  match vo with
  | none => (u, none, { status := OpStatus.NOT_FOUND, message := "Video not found", id := -1 })
  | some v =>
    let p := v.play
    ({ u with historyIds := u.historyIds ++ [v.id] }, some p.1, p.2)

/-- Embeds `User::addComment` from user.cpp: NotFound on a null video, else
delegate to `Video::addComment` with this username. -/
def User.addComment (u : User) (vo : Option Video) (text : String) (ts c : Int) :
    Option Video × OpResult × Int :=
  match vo with
  | none => (none, { status := OpStatus.NOT_FOUND, message := "Video not found", id := -1 }, c)
  | some v =>
    let p := v.addComment u.username text ts c
    (some p.1, p.2.1, p.2.2)

/-- Embeds `User::likeComment` from user.cpp: NotFound on a null video, else
delegate to `Video::likeComment`. -/
def User.likeComment (u : User) (vo : Option Video) (cid : Int) :
    Option Video × OpResult :=
  match vo with
  | none => (none, { status := OpStatus.NOT_FOUND, message := "Video not found", id := -1 })
  | some v =>
    let p := v.likeComment cid
    (some p.1, p.2)

/-- Embeds `User::createPlaylist` from user.cpp: AlreadyExists when a playlist of
that name is present, else emplace an empty playlist under that name. -/
def User.createPlaylist (u : User) (pname : String) : User × OpResult :=
  if (u.playlists.find? fun kv => kv.1 = pname).isSome then
    (u, { status := OpStatus.ALREADY_EXISTS, message := "Playlist exists", id := -1 })
  else
    ({ u with playlists := u.playlists ++ [(pname, { name := pname, videoIds := [] })] },
     { status := OpStatus.SUCCESS, message := "Created playlist \"" ++ pname ++ "\"", id := -1 })

/-- Embeds `User::getPlaylist` from user.cpp: lookup by name, null when absent. -/
def User.getPlaylist (u : User) (pname : String) : Option Playlist :=
  (u.playlists.find? fun kv => kv.1 = pname).map Prod.snd

/-- Embeds `User::subscribeChannel` from user.cpp: if the channel name inserts
freshly into the subscription set, delegate to `Channel::subscribe`;
otherwise AlreadyExists without touching the channel. -/
def User.subscribeChannel (u : User) (ch : Channel) : User × Channel × OpResult :=
  if ch.name ∈ u.subscriptions then
    (u, ch, { status := OpStatus.ALREADY_EXISTS, message := "Already subscribed", id := -1 })
  else
    let p := ch.subscribe u.username
    ({ u with subscriptions := ch.name :: u.subscriptions }, p.1, p.2)

/-- A playback instruction: one call of `play()` or `pause()`. -/
inductive POp where
  | play
  | pause
deriving DecidableEq, Repr

/-- Execute one playback instruction on a video. -/
def Video.step (v : Video) : POp → Video × OpResult
  | POp.play => v.play
  | POp.pause => v.pause

/-- Execute a finite sequence of `play()` / `pause()` calls, collecting the
returned `OpResult`s in call order. -/
def Video.runOps (v : Video) : List POp → Video × List OpResult
  | [] => (v, [])
  | op :: rest =>
    let p := v.step op
    let q := p.1.runOps rest
    (q.1, p.2 :: q.2)

/-- The number of state-changing (Success-returning) `play()` calls in a
trace: operations paired with their results, counting the `play` entries
whose result status is Success. -/
def succPlays (ops : List POp) (rs : List OpResult) : Nat :=
  (ops.zip rs).countP fun pr => pr.1 = POp.play ∧ pr.2.status = OpStatus.SUCCESS

/-- One id-minting construction: a Video construction (title, uploader,
duration) or a Comment construction (author, text, timestamp). -/
inductive MintEvent where
  | videoEv (t u : String) (d : Int)
  | commentEv (a t : String) (ts : Int)
deriving DecidableEq, Repr

/-- Run a finite interleaving of Video and Comment constructions against the
threaded `IdGen` counter, collecting the issued identifiers in call order. -/
def mintRun (c : Int) : List MintEvent → Int × List Int
  | [] => (c, [])
  | MintEvent.videoEv t u d :: rest =>
    let p := Video.create t u d c
    let q := mintRun p.2 rest
    (q.1, p.1.id :: q.2)
  | MintEvent.commentEv a t ts :: rest =>
    let p := Comment.create a t ts c
    let q := mintRun p.2 rest
    (q.1, p.1.id :: q.2)

/-- Models `::tolower` in the C locale, as used by the search branch of main.cpp:
ASCII upper-case letters map to lower case, everything else is unchanged. -/
def lowerChar (c : Char) : Char :=
  if 'A' ≤ c ∧ c ≤ 'Z' then Char.ofNat (c.toNat + 32) else c

/-- Models `transform(..., ::tolower)` over a whole string. -/
def lowerStr (s : String) : String :=
  ⟨s.data.map lowerChar⟩

/-- Models `hay.find(need) != string::npos` over character lists: scan every
suffix for `need` as a prefix. -/
def findSub (need : List Char) : List Char → Bool
  | [] => need.isPrefixOf []
  | c :: rest => need.isPrefixOf (c :: rest) || findSub need rest

/-- The match test of the search branch of main.cpp (cmd == 11): lower-case
both the query and the title, then substring search. -/
def titleMatches (q t : String) : Bool :=
  findSub (lowerStr q).data (lowerStr t).data

/-- The search branch of main.cpp over the global video collection: keep
exactly the videos whose title matches the query. -/
def searchVideos (q : String) (vs : List Video) : List Video :=
  vs.filter fun v => titleMatches q v.title

/-! Part: Sample entities used by the closed witness theorems -/

/-- A fresh, not-playing video with no comments. -/
def vidA : Video :=
  { id := 1, title := "V1", uploader := "C", durationSec := 100, views := 0,
    playing := false, comments := [] }

/-- A video that is currently playing. -/
def vidB : Video :=
  { vidA with id := 2, playing := true }

/-- A sample comment authored by alice. -/
def comC : Comment :=
  { id := 5, author := "alice", text := "hi", likes := 0, ts := 0 }

/-- A video carrying one comment. -/
def vidC : Video :=
  { vidA with id := 3, comments := [comC] }

/-- A channel owned by alice with no subscribers yet. -/
def chA : Channel :=
  { name := "C", owner := "alice", description := "", uploads := [], subscribers := [] }

/-- A fresh user. -/
def userA : User :=
  { username := "alice", subscriptions := [], historyIds := [], playlists := [] }

/-! Part: C5: `User::watch` delegates to `Video::play` -/

/-- C5: `User.watch` returns NotFound on an absent (null) video reference and
leaves the user unchanged; on a present video it appends the video's id to the
watch history, changes nothing else of the user, and returns the updated video
together with exactly the `OpResult` produced by `Video.play`. -/
theorem user_watch_delegates (u : User) :
    u.watch none = (u, none,
      { status := OpStatus.NOT_FOUND, message := "Video not found", id := -1 })
    ∧ ∀ v : Video,
        (u.watch (some v)).1.historyIds = u.historyIds ++ [v.id]
        ∧ (u.watch (some v)).1.username = u.username
        ∧ (u.watch (some v)).1.subscriptions = u.subscriptions
        ∧ (u.watch (some v)).1.playlists = u.playlists
        ∧ (u.watch (some v)).2.1 = some (v.play).1
        ∧ (u.watch (some v)).2.2 = (v.play).2 :=
  ⟨rfl, fun _ => ⟨rfl, rfl, rfl, rfl, rfl, rfl⟩⟩

/-- C5 at a concrete input. -/
theorem user_watch_delegates_witness :
    (userA.watch (some vidA)).1.historyIds = userA.historyIds ++ [vidA.id]
    ∧ (userA.watch (some vidA)).2.2 = (vidA.play).2 :=
  ⟨((user_watch_delegates userA).2 vidA).1, ((user_watch_delegates userA).2 vidA).2.2.2.2.2⟩

/-! Part: C6: `Channel::subscribe` idempotent in effect -/

/-- C6: for a user not yet subscribed, the first `subscribe` returns Success
and inserts the name; a second `subscribe` with the same user returns
AlreadyExists and leaves the subscriber set (hence its size) unchanged. -/
theorem subscribe_idempotent_effect (ch : Channel) (user : String)
    (h : user ∉ ch.subscribers) :
    ((ch.subscribe user).2.status = OpStatus.SUCCESS)
    ∧ user ∈ (ch.subscribe user).1.subscribers
    ∧ (((ch.subscribe user).1.subscribe user).2.status = OpStatus.ALREADY_EXISTS)
    ∧ ((ch.subscribe user).1.subscribe user).1 = (ch.subscribe user).1
    ∧ (((ch.subscribe user).1.subscribe user).1.subscribers.length
        = (ch.subscribe user).1.subscribers.length) := by
  simp [Channel.subscribe, h]

/-- C6 at a concrete input. -/
theorem subscribe_idempotent_effect_witness :
    ((chA.subscribe "bob").2.status = OpStatus.SUCCESS)
    ∧ (((chA.subscribe "bob").1.subscribe "bob").2.status = OpStatus.ALREADY_EXISTS) :=
  ⟨(subscribe_idempotent_effect chA "bob" (by decide)).1,
   (subscribe_idempotent_effect chA "bob" (by decide)).2.2.1⟩

/-! Part: C7: the playback state machine -/

/-- C7: the playback state machine has exactly the two states given by the
`playing` flag, a freshly constructed video starts paused, `pause()` while
playing returns Success and clears the flag, `pause()` while paused returns
InvalidInput, and both self-transitions are rejected without any change to
the state or the view counter. -/
theorem pause_state_machine (v : Video) (t u : String) (d c : Int) :
    ((Video.create t u d c).1.playing = false)
    ∧ (v.playing = true ∨ v.playing = false)
    ∧ ((v.pause).2.status = if v.playing then OpStatus.SUCCESS else OpStatus.INVALID_INPUT)
    ∧ ((v.pause).1.playing = false)
    ∧ ((v.pause).1.views = v.views)
    ∧ (v.playing = false → (v.pause).1 = v ∧ (v.pause).2.status ≠ OpStatus.SUCCESS)
    ∧ (v.playing = true → (v.play).1 = v ∧ (v.play).2.status ≠ OpStatus.SUCCESS
        ∧ (v.play).1.views = v.views) := by
  by_cases h : v.playing = true
  · simp [Video.create, IdGen.next, Video.pause, Video.play, h]
  · simp only [Bool.not_eq_true] at h
    simp [Video.create, IdGen.next, Video.pause, Video.play, h]

/-- C7 at a concrete input: the paused self-transition is rejected without
state change. -/
theorem pause_state_machine_witness :
    (vidA.pause).1 = vidA ∧ (vidA.pause).2.status ≠ OpStatus.SUCCESS :=
  (pause_state_machine vidA "t" "u" 0 0).2.2.2.2.2.1 rfl

/-! Part: C10: the history append in `User::watch` is unconditional -/

/-- C10: watching a non-null video that is already playing still appends the
video's id to the watch history (the history grows by one entry) although the
delegated `play()` is rejected with AlreadyExists and the video — including
its view count — is returned unchanged. -/
theorem watch_appends_even_when_rejected (u : User) (v : Video)
    (h : v.playing = true) :
    (u.watch (some v)).1.historyIds = u.historyIds ++ [v.id]
    ∧ (u.watch (some v)).1.historyIds.length = u.historyIds.length + 1
    ∧ (u.watch (some v)).2.2.status = OpStatus.ALREADY_EXISTS
    ∧ (u.watch (some v)).2.1 = some v := by
  simp [User.watch, Video.play, h]

/-- C10 at a concrete input. -/
theorem watch_appends_even_when_rejected_witness :
    (userA.watch (some vidB)).1.historyIds = userA.historyIds ++ [vidB.id]
    ∧ (userA.watch (some vidB)).2.2.status = OpStatus.ALREADY_EXISTS :=
  ⟨(watch_appends_even_when_rejected userA vidB rfl).1,
   (watch_appends_even_when_rejected userA vidB rfl).2.2.1⟩

/-! Part: C3: identifiers are strictly increasing and never reused -/

/-- Both kinds of construction issue `counter + 1` and advance the counter. -/
theorem mintRun_cons (c : Int) (e : MintEvent) (rest : List MintEvent) :
    (mintRun c (e :: rest)).2 = (c + 1) :: (mintRun (c + 1) rest).2 := by
  cases e <;> rfl

/-- Every identifier issued from counter state `c` exceeds `c`. -/
theorem mintRun_lt (evs : List MintEvent) :
    ∀ c : Int, ∀ x ∈ (mintRun c evs).2, c < x := by
  induction evs with
  | nil =>
    intro c x hx
    simp [mintRun] at hx
  | cons e rest ih =>
    intro c x hx
    rw [mintRun_cons] at hx
    rcases List.mem_cons.mp hx with h | h
    · omega
    · have := ih (c + 1) x h
      omega

/-- C3: across every finite interleaving of Video and Comment constructions,
the identifiers issued by `IdGen.next` are strictly increasing in call order
(each one strictly greater than every previously issued one), hence pairwise
distinct across both kinds; deletion of a Comment never feeds back into the
counter, so an identifier is never reissued. -/
theorem idgen_strictly_increasing (c : Int) (evs : List MintEvent) :
    ((mintRun c evs).2).Pairwise (· < ·) ∧ ((mintRun c evs).2).Nodup := by
  have hp : ∀ c : Int, ((mintRun c evs).2).Pairwise (· < ·) := by
    induction evs with
    | nil =>
      intro c
      simp [mintRun]
    | cons e rest ih =>
      intro c
      rw [mintRun_cons]
      exact List.Pairwise.cons (fun x hx => mintRun_lt rest (c + 1) x hx) (ih (c + 1))
  exact ⟨hp c, (hp c).imp fun h => ne_of_lt h⟩

/-- C3 at a concrete input: one Video and one Comment construction. -/
theorem idgen_strictly_increasing_witness :
    ((mintRun 0 [MintEvent.videoEv "V" "C" 9, MintEvent.commentEv "a" "t" 0]).2).Nodup :=
  (idgen_strictly_increasing 0 [MintEvent.videoEv "V" "C" 9, MintEvent.commentEv "a" "t" 0]).2

/-! Part: C1: `play()` view accounting -/

/-- Over any trace, the final view count is the initial one plus the number
of Success-returning `play()` calls in the trace. -/
theorem runOps_views (ops : List POp) :
    ∀ v : Video,
      (v.runOps ops).1.views = v.views + (succPlays ops (v.runOps ops).2 : Int) := by
  induction ops with
  | nil =>
    intro v
    simp [Video.runOps, succPlays]
  | cons op rest ih =>
    intro v
    cases op with
    | play =>
      by_cases hp : v.playing
      · have h2 := ih v
        simp [Video.runOps, Video.step, Video.play, hp, succPlays, List.countP_cons] at h2 ⊢
        omega
      · simp only [Bool.not_eq_true] at hp
        have h2 := ih { v with playing := true, views := v.views + 1 }
        simp [Video.runOps, Video.step, Video.play, hp, succPlays, List.countP_cons] at h2 ⊢
        omega
    | pause =>
      by_cases hp : v.playing
      · have h2 := ih { v with playing := false }
        simp [Video.runOps, Video.step, Video.pause, hp, succPlays, List.countP_cons] at h2 ⊢
        omega
      · simp only [Bool.not_eq_true] at hp
        have h2 := ih v
        simp [Video.runOps, Video.step, Video.pause, hp, succPlays, List.countP_cons] at h2 ⊢
        omega

/-- C1: a `play()` on a non-playing video sets the playing flag, increments
the view count by exactly 1 and returns Success; on an already-playing video
it returns AlreadyExists and changes no state.  Over every finite sequence of
`play()`/`pause()` calls the view counter grows by exactly 1 per
Success-returning `play()` and never otherwise; in particular
`play(); play()` from the paused state yields exactly one view increment and
the second call returns AlreadyExists, which is not Success. -/
theorem video_play_view_accounting (v : Video) (ops : List POp) :
    ((v.play).2.status = if v.playing then OpStatus.ALREADY_EXISTS else OpStatus.SUCCESS)
    ∧ ((v.play).1.playing = true)
    ∧ ((v.play).1.views = if v.playing then v.views else v.views + 1)
    ∧ (v.playing = true → (v.play).1 = v)
    ∧ ((v.runOps ops).1.views = v.views + (succPlays ops (v.runOps ops).2 : Int))
    ∧ (v.playing = false →
        (v.runOps [POp.play, POp.play]).1.views = v.views + 1
        ∧ (v.runOps [POp.play, POp.play]).2.map OpResult.status
            = [OpStatus.SUCCESS, OpStatus.ALREADY_EXISTS]
        ∧ OpStatus.ALREADY_EXISTS ≠ OpStatus.SUCCESS) := by
  refine ⟨?_, ?_, ?_, ?_, runOps_views ops v, ?_⟩
  · by_cases h : v.playing
    · simp [Video.play, h]
    · simp only [Bool.not_eq_true] at h
      simp [Video.play, h]
  · by_cases h : v.playing
    · simp [Video.play, h]
    · simp only [Bool.not_eq_true] at h
      simp [Video.play, h]
  · by_cases h : v.playing
    · simp [Video.play, h]
    · simp only [Bool.not_eq_true] at h
      simp [Video.play, h]
  · intro h
    simp [Video.play, h]
  · intro h
    refine ⟨?_, ?_, by decide⟩
    · simp [Video.runOps, Video.step, Video.play, h]
    · simp [Video.runOps, Video.step, Video.play, h]

/-- C1 at a concrete input: `play(); play()` from the paused state. -/
theorem video_play_view_accounting_witness :
    (vidA.runOps [POp.play, POp.play]).1.views = vidA.views + 1
    ∧ (vidA.runOps [POp.play, POp.play]).2.map OpResult.status
        = [OpStatus.SUCCESS, OpStatus.ALREADY_EXISTS] :=
  ⟨((video_play_view_accounting vidA [POp.play, POp.play]).2.2.2.2.2 rfl).1,
   ((video_play_view_accounting vidA [POp.play, POp.play]).2.2.2.2.2 rfl).2.1⟩

/-! Part: C2: `removeComment` permission discipline -/

/-- When no comment has the requested id the remove loop finds nothing and
leaves the list untouched. -/
theorem removeLoop_not_found (cid : Int) (r o : String) :
    ∀ l : List Comment, (∀ cm ∈ l, cm.id ≠ cid) →
      removeLoop cid r o l
        = (l, { status := OpStatus.NOT_FOUND, message := "Comment not found", id := -1 }) := by
  intro l
  induction l with
  | nil =>
    intro _
    rfl
  | cons hd rest ih =>
    intro h
    have h1 : hd.id ≠ cid := h hd (List.mem_cons_self hd rest)
    have h2 : ∀ x ∈ rest, x.id ≠ cid := fun x hx => h x (List.mem_cons_of_mem hd hx)
    simp [removeLoop, h1, ih h2]

/-- With duplicate-free ids, a matching comment whose author is not the
requester and with a foreign owner makes the loop stop with PermissionDenied
and an untouched list. -/
theorem removeLoop_denied (cid : Int) (r o : String) (cm : Comment)
    (hid : cm.id = cid) (ha : r ≠ cm.author) (ho : r ≠ o) :
    ∀ l : List Comment, (l.map Comment.id).Nodup → cm ∈ l →
      removeLoop cid r o l
        = (l, { status := OpStatus.PERMISSION_DENIED, message := "Permission denied", id := -1 }) := by
  intro l
  induction l with
  | nil =>
    intro _ hm
    cases hm
  | cons hd rest ih =>
    intro hnd hm
    rw [List.map_cons, List.nodup_cons] at hnd
    rcases List.mem_cons.mp hm with h1 | h1
    · subst h1
      have hno : ¬(r = cm.author ∨ r = o) := by tauto
      simp [removeLoop, hid, hno]
    · have hne : hd.id ≠ cid := by
        intro he
        exact hnd.1 (he ▸ hid ▸ List.mem_map_of_mem Comment.id h1)
      simp [removeLoop, hne, ih hnd.2 h1]

/-- With duplicate-free ids, a matching comment removable by the requester
makes the loop delete exactly that comment and report Success. -/
theorem removeLoop_success (cid : Int) (r o : String) (cm : Comment)
    (hid : cm.id = cid) (hallow : r = cm.author ∨ r = o) :
    ∀ l : List Comment, (l.map Comment.id).Nodup → cm ∈ l →
      (removeLoop cid r o l).2.status = OpStatus.SUCCESS
      ∧ (removeLoop cid r o l).1.length + 1 = l.length
      ∧ (∀ x ∈ (removeLoop cid r o l).1, x ∈ l)
      ∧ cid ∉ (removeLoop cid r o l).1.map Comment.id := by
  intro l
  induction l with
  | nil =>
    intro _ hm
    cases hm
  | cons hd rest ih =>
    intro hnd hm
    rw [List.map_cons, List.nodup_cons] at hnd
    rcases List.mem_cons.mp hm with h1 | h1
    · subst h1
      have hrl : removeLoop cid r o (cm :: rest)
          = (rest, { status := OpStatus.SUCCESS, message := "Comment removed", id := -1 }) := by
        simp [removeLoop, hid, hallow]
      refine ⟨by rw [hrl], by rw [hrl]; simp, ?_, ?_⟩
      · intro x hx
        rw [hrl] at hx
        exact List.mem_cons_of_mem cm hx
      · rw [hrl]
        exact hid ▸ hnd.1
    · have hne : hd.id ≠ cid := by
        intro he
        exact hnd.1 (he ▸ hid ▸ List.mem_map_of_mem Comment.id h1)
      have hr := ih hnd.2 h1
      refine ⟨?_, ?_, ?_, ?_⟩
      · simpa [removeLoop, hne] using hr.1
      · have := hr.2.1
        simp only [removeLoop, if_neg hne]
        simp only [List.length_cons]
        omega
      · intro x hx
        simp only [removeLoop, if_neg hne, List.mem_cons] at hx
        rcases hx with hx | hx
        · exact hx ▸ List.mem_cons_self hd rest
        · exact List.mem_cons_of_mem hd (hr.2.2.1 x hx)
      · simp only [removeLoop, if_neg hne, List.map_cons, List.mem_cons]
        intro hc
        rcases hc with hc | hc
        · exact hne hc.symm
        · exact hr.2.2.2 hc

/-- With duplicate-free ids the loop reports Success exactly when some
comment carries the requested id and the requester may remove it. -/
theorem removeLoop_success_iff (cid : Int) (r o : String) :
    ∀ l : List Comment, (l.map Comment.id).Nodup →
      ((removeLoop cid r o l).2.status = OpStatus.SUCCESS
        ↔ ∃ cm ∈ l, cm.id = cid ∧ (r = cm.author ∨ r = o)) := by
  intro l
  induction l with
  | nil =>
    intro _
    simp [removeLoop]
  | cons hd rest ih =>
    intro hnd
    rw [List.map_cons, List.nodup_cons] at hnd
    by_cases hh : hd.id = cid
    · by_cases hal : r = hd.author ∨ r = o
      · have hrl : removeLoop cid r o (hd :: rest)
            = (rest, { status := OpStatus.SUCCESS, message := "Comment removed", id := -1 }) := by
          simp [removeLoop, hh, hal]
        rw [hrl]
        exact iff_of_true rfl ⟨hd, List.mem_cons_self hd rest, hh, hal⟩
      · have hrl : removeLoop cid r o (hd :: rest)
            = (hd :: rest,
               { status := OpStatus.PERMISSION_DENIED, message := "Permission denied", id := -1 }) := by
          simp [removeLoop, hh, hal]
        rw [hrl]
        constructor
        · intro h
          simp at h
        · rintro ⟨cm, hm, hid, hcal⟩
          rcases List.mem_cons.mp hm with h1 | h1
          · exact absurd (h1 ▸ hcal) hal
          · exact absurd (hh ▸ hid ▸ List.mem_map_of_mem Comment.id h1) hnd.1
    · have hrl : (removeLoop cid r o (hd :: rest)).2 = (removeLoop cid r o rest).2 := by
        simp [removeLoop, hh]
      rw [hrl, ih hnd.2]
      constructor
      · rintro ⟨cm, hm, hrest⟩
        exact ⟨cm, List.mem_cons_of_mem hd hm, hrest⟩
      · rintro ⟨cm, hm, hid, hcal⟩
        rcases List.mem_cons.mp hm with h1 | h1
        · exact absurd (h1 ▸ hid) hh
        · exact ⟨cm, h1, hid, hcal⟩

/-- C2: under the invariant that comment ids are duplicate-free,
`removeComment(id, requester, channelOwner)` returns Success exactly when a
comment with that id exists and the requester is its author or the channel
owner, in which case exactly that comment is deleted; an existing comment
with a foreign requester yields PermissionDenied with the comment list
unchanged; an unknown id yields NotFound with the comment list unchanged. -/
theorem removeComment_permission_spec (v : Video) (cid : Int)
    (requester channelOwner : String)
    (hnd : (v.comments.map Comment.id).Nodup) :
    ((v.removeComment cid requester channelOwner).2.status = OpStatus.SUCCESS
      ↔ ∃ cm ∈ v.comments, cm.id = cid
          ∧ (requester = cm.author ∨ requester = channelOwner))
    ∧ (∀ cm ∈ v.comments, cm.id = cid → requester ≠ cm.author →
        requester ≠ channelOwner →
        (v.removeComment cid requester channelOwner).2.status = OpStatus.PERMISSION_DENIED
        ∧ (v.removeComment cid requester channelOwner).1.comments = v.comments)
    ∧ ((∀ cm ∈ v.comments, cm.id ≠ cid) →
        (v.removeComment cid requester channelOwner).2.status = OpStatus.NOT_FOUND
        ∧ (v.removeComment cid requester channelOwner).1.comments = v.comments)
    ∧ (∀ cm ∈ v.comments, cm.id = cid →
        (requester = cm.author ∨ requester = channelOwner) →
        (v.removeComment cid requester channelOwner).1.comments.length + 1
          = v.comments.length
        ∧ cid ∉ (v.removeComment cid requester channelOwner).1.comments.map Comment.id
        ∧ ∀ x ∈ (v.removeComment cid requester channelOwner).1.comments,
            x ∈ v.comments) := by
  refine ⟨?_, ?_, ?_, ?_⟩
  · exact removeLoop_success_iff cid requester channelOwner v.comments hnd
  · intro cm hm hid ha ho
    have h := removeLoop_denied cid requester channelOwner cm hid ha ho v.comments hnd hm
    constructor
    · show (removeLoop cid requester channelOwner v.comments).2.status = _
      rw [h]
    · show (removeLoop cid requester channelOwner v.comments).1 = _
      rw [h]
  · intro h
    have h2 := removeLoop_not_found cid requester channelOwner v.comments h
    constructor
    · show (removeLoop cid requester channelOwner v.comments).2.status = _
      rw [h2]
    · show (removeLoop cid requester channelOwner v.comments).1 = _
      rw [h2]
  · intro cm hm hid hallow
    have h := removeLoop_success cid requester channelOwner cm hid hallow v.comments hnd hm
    exact ⟨h.2.1, h.2.2.2, h.2.2.1⟩

/-- C2 at a concrete input: the author removes their own comment. -/
theorem removeComment_permission_spec_witness :
    (vidC.removeComment 5 "alice" "owner").2.status = OpStatus.SUCCESS :=
  (removeComment_permission_spec vidC 5 "alice" "owner" (by decide)).1.mpr
    ⟨comC, by decide, rfl, Or.inl rfl⟩

/-! Part: C8: NotLoggedIn is never produced by the core -/

/-- The `likeComment` search loop only reports Success or NotFound. -/
theorem likeLoop_status_ne (cid : Int) :
    ∀ l : List Comment, (likeLoop cid l).2.status ≠ OpStatus.NOT_LOGGED_IN := by
  intro l
  induction l with
  | nil => simp [likeLoop]
  | cons hd rest ih =>
    by_cases hh : hd.id = cid
    · simp [likeLoop, hh]
    · simpa [likeLoop, hh] using ih

/-- The `removeComment` search loop only reports Success, PermissionDenied
or NotFound. -/
theorem removeLoop_status_ne (cid : Int) (r o : String) :
    ∀ l : List Comment, (removeLoop cid r o l).2.status ≠ OpStatus.NOT_LOGGED_IN := by
  intro l
  induction l with
  | nil => simp [removeLoop]
  | cons hd rest ih =>
    by_cases hh : hd.id = cid
    · by_cases hal : r = hd.author ∨ r = o
      · simp [removeLoop, hh, hal]
      · simp [removeLoop, hh, hal]
    · simpa [removeLoop, hh] using ih

/-- C8: no `OpResult`-returning core operation of Video, Channel or User ever
carries the NotLoggedIn status, for any input and any state (Playlist has no
`OpResult`-returning operation); that status is left to caller-side session
checks. -/
theorem core_never_not_logged_in (v : Video) (u : User) (ch : Channel)
    (user text a pname : String) (cid ts c : Int) (vo : Option Video) :
    (v.play).2.status ≠ OpStatus.NOT_LOGGED_IN
    ∧ (v.pause).2.status ≠ OpStatus.NOT_LOGGED_IN
    ∧ (v.addComment user text ts c).2.1.status ≠ OpStatus.NOT_LOGGED_IN
    ∧ (v.likeComment cid).2.status ≠ OpStatus.NOT_LOGGED_IN
    ∧ (v.removeComment cid user a).2.status ≠ OpStatus.NOT_LOGGED_IN
    ∧ (ch.subscribe user).2.status ≠ OpStatus.NOT_LOGGED_IN
    ∧ (ch.unsubscribe user).2.status ≠ OpStatus.NOT_LOGGED_IN
    ∧ (u.watch vo).2.2.status ≠ OpStatus.NOT_LOGGED_IN
    ∧ (u.addComment vo text ts c).2.1.status ≠ OpStatus.NOT_LOGGED_IN
    ∧ (u.likeComment vo cid).2.status ≠ OpStatus.NOT_LOGGED_IN
    ∧ (u.createPlaylist pname).2.status ≠ OpStatus.NOT_LOGGED_IN
    ∧ (u.subscribeChannel ch).2.2.status ≠ OpStatus.NOT_LOGGED_IN := by
  refine ⟨?_, ?_, ?_, ?_, ?_, ?_, ?_, ?_, ?_, ?_, ?_, ?_⟩
  · by_cases h : v.playing
    · simp [Video.play, h]
    · simp [Video.play, h]
  · by_cases h : v.playing
    · simp [Video.pause, h]
    · simp [Video.pause, h]
  · simp [Video.addComment, Comment.create, IdGen.next]
  · exact likeLoop_status_ne cid v.comments
  · exact removeLoop_status_ne cid user a v.comments
  · by_cases h : user ∈ ch.subscribers
    · simp [Channel.subscribe, h]
    · simp [Channel.subscribe, h]
  · by_cases h : user ∈ ch.subscribers
    · simp [Channel.unsubscribe, h]
    · simp [Channel.unsubscribe, h]
  · cases vo with
    | none => simp [User.watch]
    | some w =>
      by_cases h : w.playing
      · simp [User.watch, Video.play, h]
      · simp [User.watch, Video.play, h]
  · cases vo with
    | none => simp [User.addComment]
    | some w => simp [User.addComment, Video.addComment, Comment.create, IdGen.next]
  · cases vo with
    | none => simp [User.likeComment]
    | some w =>
      show (likeLoop cid w.comments).2.status ≠ OpStatus.NOT_LOGGED_IN
      exact likeLoop_status_ne cid w.comments
  · by_cases h : (u.playlists.find? fun kv => kv.1 = pname).isSome
    · simp [User.createPlaylist, h]
    · simp [User.createPlaylist, h]
  · by_cases h : ch.name ∈ u.subscriptions
    · simp [User.subscribeChannel, h]
    · by_cases h2 : u.username ∈ ch.subscribers
      · simp [User.subscribeChannel, Channel.subscribe, h, h2]
      · simp [User.subscribeChannel, Channel.subscribe, h, h2]

/-- C8 at a concrete input. -/
theorem core_never_not_logged_in_witness :
    (vidA.play).2.status ≠ OpStatus.NOT_LOGGED_IN
    ∧ (userA.createPlaylist "P").2.status ≠ OpStatus.NOT_LOGGED_IN :=
  ⟨(core_never_not_logged_in vidA userA chA "bob" "t" "a" "P" 5 0 0 (some vidA)).1,
   (core_never_not_logged_in vidA userA chA "bob" "t" "a" "P" 5 0 0 (some vidA)).2.2.2.2.2.2.2.2.2.2.1⟩

/-! Part: C9: case-insensitive title search -/

/-- The suffix scan of `findSub` is exactly substring containment. -/
theorem findSub_iff (need : List Char) :
    ∀ hay : List Char, findSub need hay = true ↔ need <:+: hay := by
  intro hay
  induction hay with
  | nil =>
    simp [findSub, List.isPrefixOf_iff_prefix]
  | cons c rest ih =>
    simp [findSub, List.isPrefixOf_iff_prefix, ih, List.infix_cons_iff]

/-- C9: the search branch returns exactly the stored videos whose lower-cased
title contains the lower-cased query as a substring; the query "c++" matches
the title "C++ OOP Deep Dive" and not "Chill Loops". -/
theorem search_case_insensitive (q : String) (vs : List Video) :
    (∀ v : Video, v ∈ searchVideos q vs ↔ v ∈ vs ∧ titleMatches q v.title = true)
    ∧ (∀ t : String, titleMatches q t = true ↔ (lowerStr q).data <:+: (lowerStr t).data)
    ∧ titleMatches "c++" "C++ OOP Deep Dive" = true
    ∧ titleMatches "c++" "Chill Loops" = false := by
  refine ⟨?_, ?_, by decide, by decide⟩
  · intro v
    exact List.mem_filter
  · intro t
    exact findSub_iff (lowerStr q).data (lowerStr t).data

/-- C9 at a concrete input. -/
theorem search_case_insensitive_witness :
    titleMatches "c++" "C++ OOP Deep Dive" = true
    ∧ titleMatches "c++" "Chill Loops" = false :=
  ⟨(search_case_insensitive "c++" []).2.2.1, (search_case_insensitive "c++" []).2.2.2⟩

/-! Part: C4: `Playlist::show` rendering -/

/-- C4 as stated is false on the code: for a non-empty playlist none of whose
ids resolve, `show` prints only the header — no "(empty)" marker. -/
theorem playlist_show_no_marker_on_unresolved :
    ({ name := "P", videoIds := [5] } : Playlist).videoIds ≠ []
    ∧ (∀ i ∈ ({ name := "P", videoIds := [5] } : Playlist).videoIds,
        (fun _ : Int => (none : Option Video)) i = none)
    ∧ Playlist.show { name := "P", videoIds := [5] } (fun _ => none) = ["Playlist: P"]
    ∧ "  (empty)" ∉ Playlist.show { name := "P", videoIds := [5] } (fun _ => none) := by
  refine ⟨by decide, fun i _ => rfl, by decide, by decide⟩

/-- The header line never coincides with the "(empty)" marker. -/
theorem header_ne_marker (s : String) : "Playlist: " ++ s ≠ "  (empty)" := by
  intro h
  have h2 := congrArg String.data h
  simp [String.data_append] at h2

/-- An entry line never coincides with the "(empty)" marker. -/
theorem showLine_ne_marker (i : Nat) (v : Video) : showLine i v ≠ "  (empty)" := by
  intro h
  have h2 := congrArg String.data h
  simp [showLine, String.data_append] at h2

/-- Entry lines are one per resolvable id. -/
theorem length_filterMap_lines (m : Int → Option Video) :
    ∀ l : List (Nat × Int),
      (l.filterMap fun iv => (m iv.2).map (showLine iv.1)).length
        = l.countP fun iv => (m iv.2).isSome := by
  intro l
  induction l with
  | nil => simp
  | cons hd rest ih =>
    cases hm : m hd.2 with
    | none => simp [List.filterMap_cons, List.countP_cons, hm, ih]
    | some w => simp [List.filterMap_cons, List.countP_cons, hm, ih]

/-- Counting over the enumerated list ignores the indices. -/
theorem countP_enumFrom (q : Int → Bool) :
    ∀ (l : List Int) (n : Nat),
      (List.enumFrom n l).countP (fun iv => q iv.2) = l.countP q := by
  intro l
  induction l with
  | nil =>
    intro n
    simp
  | cons hd rest ih =>
    intro n
    simp [List.enumFrom, List.countP_cons, ih]

/-- C4 amended: `show` renders the header, then — only when the stored id
list has zero entries — the "(empty)" marker; for a non-empty id list it
renders, in stored order, one line per id the mapping resolves and silently
skips unresolved ids (so nothing besides the header when none resolve: the
marker appears exactly for the zero-entry list). -/
theorem playlist_show_spec (p : Playlist) (m : Int → Option Video) :
    (p.show m).head? = some ("Playlist: " ++ p.name)
    ∧ ("  (empty)" ∈ p.show m ↔ p.videoIds = [])
    ∧ (p.videoIds = [] → p.show m = ["Playlist: " ++ p.name, "  (empty)"])
    ∧ (p.videoIds ≠ [] →
        (p.show m).tail
          = p.videoIds.enum.filterMap fun iv => (m iv.2).map (showLine iv.1))
    ∧ (p.videoIds ≠ [] →
        (p.show m).length = 1 + p.videoIds.countP fun vid => (m vid).isSome) := by
  have hne : p.videoIds ≠ [] → p.videoIds.isEmpty = false := by
    intro h
    cases hv : p.videoIds with
    | nil => exact absurd hv h
    | cons a l => simp
  refine ⟨rfl, ?_, ?_, ?_, ?_⟩
  · constructor
    · intro h
      rcases List.mem_cons.mp h with h | h
      · exact absurd h.symm (header_ne_marker p.name)
      · by_cases he : p.videoIds = []
        · exact he
        · rw [if_neg (by simp [hne he])] at h
          rcases List.mem_filterMap.mp h with ⟨iv, _, hmap⟩
          rcases Option.map_eq_some'.mp hmap with ⟨w, _, hline⟩
          exact absurd hline (showLine_ne_marker iv.1 w)
    · intro h
      simp [Playlist.show, h]
  · intro h
    simp [Playlist.show, h]
  · intro h
    simp [Playlist.show, hne h]
  · intro h
    show (("Playlist: " ++ p.name) ::
        (if p.videoIds.isEmpty then ["  (empty)"]
         else p.videoIds.enum.filterMap fun iv => (m iv.2).map (showLine iv.1))).length = _
    rw [if_neg (by simp [hne h])]
    rw [List.length_cons, length_filterMap_lines m p.videoIds.enum]
    have : p.videoIds.enum.countP (fun iv => (m iv.2).isSome)
        = p.videoIds.countP fun vid => (m vid).isSome :=
      countP_enumFrom (fun vid => (m vid).isSome) p.videoIds 0
    omega

/-- C4 amended at a concrete input: one resolvable and one unresolvable id. -/
theorem playlist_show_spec_witness :
    ("  (empty)" ∈ Playlist.show { name := "P", videoIds := ([] : List Int) } (fun _ => none)) :=
  (playlist_show_spec { name := "P", videoIds := [] } (fun _ => none)).2.1.mpr rfl
